import Mathlib

/-!
Verification of the okihome dashboard backend's repository and tab/widget
reconciliation subsystem.

The Go sources are shallowly embedded:

* the transaction-scoping primitive `runInTransaction` (identical in
  `repository/sqlite/sqlite.go` and `repository/postgresql/postgresql.go`)
  becomes a polymorphic state transformer; a transactional repository view
  (`r.Tx != nil`) is represented by the `inTx : Bool` flag;
* a tab's stored layout (the columnar array-of-arrays of widget IDs that
  `StoreTab` serialises) becomes `List (List Int)`;
* `UpdateTabLayout` and `DeleteWidgetFromTab` are embedded from the bodies of
  the closures those functions pass to `runInTransaction`; a possible failure
  of the final `StoreTab` call is represented by the `storeTabFails` flag;
* the feed table, the email-item cache and the per-user read-state table
  become association lists whose lookup mirrors the SQL `SELECT` statements;
* the service layer (`app.go`) is embedded over a single-tab database
  `AppDB`; Go errors built with `pkg/errors` become the `AppError` inductive,
  where `AppError.cause` mirrors `errors.Cause` and the `notAuthorized`
  constructor mirrors the `notAuthorized` string type of `app.go`.
-/

namespace Okihome

/-- Transaction-scoping primitive of the SQL backends (`runInTransaction`).
If the receiver is already a transactional view (`r.Tx != nil`, here `inTx`),
it fails at once with the nested-transaction error, before starting anything.
Otherwise the closure `f` runs against the transaction snapshot: if it
returns an error the transaction is rolled back (the writes in the snapshot
are discarded), else the snapshot is committed. -/
def runInTransaction {σ : Type} (inTx : Bool) (f : σ → Except String Unit × σ)
    (db : σ) : Except String Unit × σ :=
  if inTx then (Except.error "Nested transactions are prohibited", db)
  else
    match f db with
    | (Except.error e, _) => (Except.error e, db)
    | (Except.ok _, db') => (Except.ok (), db')

/-- The map `allWidgets` that `UpdateTabLayout` builds from the tab's current
layout: widget IDs are inserted column by column, a repeated ID overwriting
its previous entry, so the result is the set of IDs of the current layout. -/
def buildAvail (cur : List (List Int)) : List Int :=
  cur.flatten.foldl (fun s id => if id ∈ s then s else s ++ [id]) []

/-- Inner loop of `UpdateTabLayout` over one column of the proposed layout:
each widget ID must be found in the remaining map (else the closure returns
the "Unable to find widget in tab" error) and is then deleted from it. -/
def consumeCol : List Int → List Int → Option (List Int)
  | avail, [] => some avail
  | avail, x :: xs => if x ∈ avail then consumeCol (avail.erase x) xs else none

/-- Outer loop of `UpdateTabLayout` over the columns of the proposed layout. -/
def consumeLayout : List Int → List (List Int) → Option (List Int)
  | avail, [] => some avail
  | avail, col :: cols =>
    match consumeCol avail col with
    | none => none
    | some a => consumeLayout a cols

/-- Closure passed by `UpdateTabLayout` to `runInTransaction`: validate the
proposed layout against the current one, then (unless the final `StoreTab`
fails, flag `storeTabFails`) persist the proposed layout. -/
def updateTabLayoutTx (storeTabFails : Bool) (newLayout cur : List (List Int)) :
    Except String Unit × List (List Int) :=
  match consumeLayout (buildAvail cur) newLayout with
  | none => (Except.error "Unable to find widget in tab", cur)
  | some rest =>
    if rest.isEmpty then
      if storeTabFails then (Except.error "saving tab in datastore failed", newLayout)
      else (Except.ok (), newLayout)
    else (Except.error "Not all widgets used in new layout", cur)

/-- `UpdateTabLayout` of the SQL backends: the validation closure run inside
the transaction-scoping primitive. -/
def UpdateTabLayout (storeTabFails : Bool) (newLayout cur : List (List Int)) :
    Except String Unit × List (List Int) :=
  runInTransaction false (updateTabLayoutTx storeTabFails newLayout) cur

/-- Index of the last occurrence of `wid` in one column, mirroring the Go scan
in `DeleteWidgetFromTab`, which keeps overwriting `jFound` without breaking. -/
def lastIdx (wid : Int) : List Int → Option Nat
  | [] => none
  | x :: xs =>
    match lastIdx wid xs with
    | some j => some (j + 1)
    | none => if x == wid then some 0 else none

/-- Column/row position `(iFound, jFound)` of the last occurrence of `wid` in
the layout, mirroring the double loop of `DeleteWidgetFromTab`. -/
def lastPos (wid : Int) : List (List Int) → Option (Nat × Nat)
  | [] => none
  | col :: cols =>
    match lastPos wid cols with
    | some (i, j) => some (i + 1, j)
    | none =>
      match lastIdx wid col with
      | some j => some (0, j)
      | none => none

/-- Removal of the entry at position `(i, j)`, mirroring the Go statement
`tab.Widgets[iFound] = append(tab.Widgets[iFound][:jFound], tab.Widgets[iFound][jFound+1:]...)`. -/
def removeAt : Nat → Nat → List (List Int) → List (List Int)
  | _, _, [] => []
  | 0, j, col :: cols => col.eraseIdx j :: cols
  | i + 1, j, col :: cols => col :: removeAt i j cols

/-- Closure passed by `DeleteWidgetFromTab` to `runInTransaction`: locate the
widget by linear scan, fail with "widget not found" if absent, else remove
that single entry and persist the updated layout via `StoreTab`. -/
def deleteWidgetTx (storeTabFails : Bool) (wid : Int) (cur : List (List Int)) :
    Except String Unit × List (List Int) :=
  match lastPos wid cur with
  | none => (Except.error "widget not found", cur)
  | some (i, j) =>
    if storeTabFails then (Except.error "saving tab in datastore failed", removeAt i j cur)
    else (Except.ok (), removeAt i j cur)

/-- `DeleteWidgetFromTab` of the SQL backends: the removal closure run inside
the transaction-scoping primitive. -/
def DeleteWidgetFromTab (storeTabFails : Bool) (wid : Int) (cur : List (List Int)) :
    Except String Unit × List (List Int) :=
  runInTransaction false (deleteWidgetTx storeTabFails wid) cur

/-- A row of the feed table `t_feed` (only the columns `GetOrCreateFeedID`
touches). -/
structure FeedRow where
  id : Int
  url : String
deriving DecidableEq

/-- The feed table together with the auto-increment counter that produces the
ID of an inserted row. -/
structure FeedDB where
  feeds : List FeedRow
  nextID : Int
deriving DecidableEq

/-- `GetOrCreateFeedID`: select the feed row by URL; on no-rows, insert a new
row and return its ID. -/
def GetOrCreateFeedID (db : FeedDB) (url : String) : Int × FeedDB :=
  match db.feeds.find? (fun f => f.url == url) with
  | some f => (f.id, db)
  | none =>
    (db.nextID, { feeds := db.feeds ++ [⟨db.nextID, url⟩], nextID := db.nextID + 1 })

/-- Cached fields of an email item (`api.EmailItem`); the Go field `From` is
stored in the column `sender`. Timestamps are opaque integers. -/
structure EmailItem where
  guid : String
  title : String
  published : Int
  link : String
  sender : String
  snippet : String
  read : Bool
deriving DecidableEq

/-- The zero value `api.EmailItem{}` returned by `GetEmailItem` on no-rows. -/
def zeroEmailItem : EmailItem :=
  { guid := "", title := "", published := 0, link := "", sender := "",
    snippet := "", read := false }

/-- A row of the email cache table `t_emailitem`, keyed by
`(account_id, guid)` and carrying the monotonic version number. -/
structure EmailRow where
  accountID : Int
  item : EmailItem
  version : Nat
deriving DecidableEq

/-- The `WHERE account_id=$1 AND guid=$2` predicate of the email cache. -/
def rowKey (aid : Int) (g : String) (r : EmailRow) : Bool :=
  r.accountID == aid && r.item.guid == g

/-- Selecting the stored row for a key, as `sqlx.Get` does. -/
def findRow (store : List EmailRow) (aid : Int) (g : String) : Option EmailRow :=
  store.find? (rowKey aid g)

/-- `StoreEmailItem`: read the current stored version for
`(account.ID, item.GUID)`; on no-rows insert with the incoming version; if
the stored version is strictly smaller, overwrite every cached field and the
version; otherwise leave the table untouched and report success. -/
def StoreEmailItem (store : List EmailRow) (aid : Int) (version : Nat)
    (item : EmailItem) : List EmailRow :=
  match findRow store aid item.guid with
  | none => store ++ [⟨aid, item, version⟩]
  | some r =>
    if r.version < version then
      store.map (fun row => if rowKey aid item.guid row then ⟨aid, item, version⟩ else row)
    else store

/-- `GetEmailItem`: select the row for the key whose version is at least
`minVersion`; on no-rows return the zero-value item with a nil error. -/
def GetEmailItem (store : List EmailRow) (aid : Int) (g : String)
    (minVersion : Nat) : Except String EmailItem :=
  match store.find? (fun r => rowKey aid g r && decide (minVersion ≤ r.version)) with
  | some r => Except.ok r.item
  | none => Except.ok zeroEmailItem

/-- A row of the feed item table `t_feeditem` (columns selected by
`GetFeedItems`). -/
structure FeedItem where
  guid : String
  title : String
  published : Int
  link : String
deriving DecidableEq

/-- `api.ItemForUser`: a feed item paired with its read status. -/
structure ItemForUser where
  item : FeedItem
  read : Bool
deriving DecidableEq

/-- The per-user read-state table `tj_feeditem_user`, keyed by
`(user_id, feed_id, guid)`. -/
abbrev ReadStore := List ((String × Int × String) × Bool)

/-- One iteration of `AreItemsRead`: select the `read` flag for a GUID,
defaulting to `false` on no-rows. -/
def readLookup (rs : ReadStore) (u : String) (fid : Int) (g : String) : Bool :=
  match rs.find? (fun e => e.1 == (u, fid, g)) with
  | some e => e.2
  | none => false

/-- `AreItemsRead` of the repository: the read flag of each GUID in order. -/
def AreItemsRead (rs : ReadStore) (u : String) (fid : Int)
    (guids : List String) : List Bool :=
  guids.map (readLookup rs u fid)

/-- Core of `App.FeedItems` after authorization and feed refresh: fail on an
empty item list, cap the count at 100, look up the read status of the first
`count` GUIDs and pair them with the items. -/
def FeedItemsCore (rs : ReadStore) (u : String) (fid : Int) (feedURL : String)
    (feeditems : List FeedItem) : Except String (List ItemForUser) :=
  if feeditems.length = 0 then Except.error ("No items in feed " ++ feedURL)
  else
    let count := if feeditems.length > 100 then 100 else feeditems.length
    let sel := feeditems.take count
    let readStatus := AreItemsRead rs u fid (sel.map (fun it => it.guid))
    Except.ok ((sel.zip readStatus).map (fun p => ⟨p.1, p.2⟩))

/-- Service-layer errors. `basic` is `errors.New`, `wrap` is `errors.Wrap`
(which keeps its cause), and `notAuthorized` is the dedicated string type of
`app.go` whose values satisfy `IsNotAuthorized`. -/
inductive AppError where
  | notAuthorized (msg : String)
  | basic (msg : String)
  | wrap (msg : String) (cause : AppError)
deriving DecidableEq

/-- `errors.Cause`: unwrap `wrap` layers down to the root error. -/
def AppError.cause : AppError → AppError
  | .wrap _ c => AppError.cause c
  | .notAuthorized m => .notAuthorized m
  | .basic m => .basic m

/-- Whether an error is NotAuthorized-classified: its root cause is a value
of the `notAuthorized` type (the only type in the code base implementing
`IsNotAuthorized`). -/
def AppError.isNotAuthorizedError (e : AppError) : Bool :=
  match e.cause with
  | .notAuthorized _ => true
  | _ => false

/-- Single-tab database seen by the service layer: the tab row (title and
layout), the widget rows persisted for the tab (`t_widget`), the user IDs
holding a `tj_tabaccess` grant for the tab, and the widget auto-increment
counter. -/
structure AppDB where
  tabTitle : String
  layout : List (List Int)
  widgetRows : List Int
  access : List String
  nextWidgetID : Int
deriving DecidableEq

/-- `IsTabAccessAllowed`: count the access grants for `(userID, tabID)`; any
count other than one is the "Tab access not allowed" error. -/
def IsTabAccessAllowed (db : AppDB) (userID : String) : Except AppError Unit :=
  if (db.access.filter (fun u => u == userID)).length = 1 then Except.ok ()
  else Except.error (AppError.basic "Tab access not allowed")

/-- `App.EditTab`: on an access-check error a non-admin caller gets that
error wrapped with "access by"; otherwise the tab summary is stored. -/
def EditTab (db : AppDB) (caller : String) (isAdmin : Bool) (newTitle : String) :
    Except AppError String × AppDB :=
  let body : Except AppError String × AppDB :=
    (Except.ok newTitle, { db with tabTitle := newTitle })
  match IsTabAccessAllowed db caller with
  | Except.error e =>
    if !isAdmin then (Except.error (AppError.wrap ("access by " ++ caller) e), db)
    else body
  | Except.ok _ => body

/-- `App.UpdateLayout`: same access guard, then the repository's
`UpdateTabLayout`. -/
def UpdateLayout (db : AppDB) (caller : String) (isAdmin : Bool)
    (newLayout : List (List Int)) : Except AppError (List (List Int)) × AppDB :=
  let body : Except AppError (List (List Int)) × AppDB :=
    match UpdateTabLayout false newLayout db.layout with
    | (Except.error e, l') =>
      (Except.error (AppError.wrap "saving tab in datastore failed" (AppError.basic e)),
        { db with layout := l' })
    | (Except.ok _, l') => (Except.ok newLayout, { db with layout := l' })
  match IsTabAccessAllowed db caller with
  | Except.error e =>
    if !isAdmin then (Except.error (AppError.wrap ("access by " ++ caller) e), db)
    else body
  | Except.ok _ => body

/-- The repository's `DeleteWidget`: delete the widget row for
`(tabID, widgetID)`. -/
def DeleteWidgetRow (db : AppDB) (wid : Int) : AppDB :=
  { db with widgetRows := db.widgetRows.filter (fun w => w != wid) }

/-- `App.DeleteWidget`: access guard, then `DeleteWidgetFromTab` (inside its
transaction) followed by the separate, non-transactional widget row
deletion. -/
def DeleteWidget (db : AppDB) (caller : String) (isAdmin : Bool) (wid : Int) :
    Except AppError Bool × AppDB :=
  let body : Except AppError Bool × AppDB :=
    match DeleteWidgetFromTab false wid db.layout with
    | (Except.error e, l') =>
      (Except.error (AppError.wrap "removing widget from tab failed" (AppError.basic e)),
        { db with layout := l' })
    | (Except.ok _, l') => (Except.ok true, DeleteWidgetRow { db with layout := l' } wid)
  match IsTabAccessAllowed db caller with
  | Except.error e =>
    if !isAdmin then (Except.error (AppError.wrap ("access by " ++ caller) e), db)
    else body
  | Except.ok _ => body

/-- Persistence steps of `App.NewWidget` (app.go lines 591-611): `StoreWidget`
inserts the widget row and assigns its ID, then the widget is appended to the
first column (a single empty column is created when the tab has none) and the
tab is stored by a separate `StoreTab` call, outside any transaction. A
failure of that `StoreTab` call is represented by `storeTabFails`: the widget
row insertion has already happened and stays. -/
def NewWidgetPersist (storeTabFails : Bool) (db : AppDB) :
    Except AppError Int × AppDB :=
  let wid := db.nextWidgetID
  let db1 : AppDB :=
    { db with widgetRows := db.widgetRows ++ [wid], nextWidgetID := wid + 1 }
  let cols := if db1.layout.isEmpty then [[]] else db1.layout
  let newLayout :=
    match cols with
    | [] => [[wid]]
    | c :: rest => (c ++ [wid]) :: rest
  if storeTabFails then
    (Except.error (AppError.basic "saving tab in datastore failed"), db1)
  else (Except.ok wid, { db1 with layout := newLayout })

/-- `App.NewWidget`: access guard, then the persistence steps. -/
def NewWidget (db : AppDB) (caller : String) (isAdmin : Bool)
    (storeTabFails : Bool) : Except AppError Int × AppDB :=
  let body := NewWidgetPersist storeTabFails db
  match IsTabAccessAllowed db caller with
  | Except.error e =>
    if !isAdmin then (Except.error (AppError.wrap ("access by " ++ caller) e), db)
    else body
  | Except.ok _ => body

/-- Claim C2: a closure error rolls the transaction back, so none of the
closure's writes are observable afterwards; and invoking the
transaction-scoping call on a view that is already inside a transaction fails
immediately with the nested-transaction error, leaving the state untouched
whatever the closure is (it is never executed). -/
theorem runInTransaction_atomicity {σ : Type} (f : σ → Except String Unit × σ)
    (db : σ) :
    (∀ e st, f db = (Except.error e, st) →
      runInTransaction false f db = (Except.error e, db)) ∧
    runInTransaction true f db =
      (Except.error "Nested transactions are prohibited", db) := by
  constructor
  · intro e st h
    simp [runInTransaction, h]
  · simp [runInTransaction]

/-- Witness for C2: a closure that increments the state and fails; the write
is rolled back. -/
theorem runInTransaction_atomicity_witness :
    runInTransaction false (fun n : Nat => (Except.error "boom", n + 1)) 0 =
      (Except.error "boom", 0) :=
  (runInTransaction_atomicity (fun n : Nat => (Except.error "boom", n + 1)) 0).1
    "boom" 1 rfl

/-- Unfolding of the transaction-scoping call outside a transaction. -/
theorem runInTransaction_false_eq {σ : Type} (f : σ → Except String Unit × σ)
    (db : σ) :
    runInTransaction false f db =
      match f db with
      | (Except.error e, _) => (Except.error e, db)
      | (Except.ok _, db') => (Except.ok (), db') := by
  simp [runInTransaction]

/-- Splitting the column loop of the layout validation across an append. -/
theorem consumeCol_append (a l1 l2 : List Int) :
    consumeCol a (l1 ++ l2) =
      match consumeCol a l1 with
      | none => none
      | some a' => consumeCol a' l2 := by
  induction l1 generalizing a with
  | nil => simp [consumeCol]
  | cons x xs ih =>
    by_cases hx : x ∈ a
    · simp [consumeCol, hx, ih]
    · simp [consumeCol, hx]

/-- The nested validation loop of `UpdateTabLayout` consumes exactly the
flattened proposed layout. -/
theorem consumeLayout_eq_flatten (a : List Int) (cols : List (List Int)) :
    consumeLayout a cols = consumeCol a cols.flatten := by
  induction cols generalizing a with
  | nil => simp [consumeLayout, consumeCol]
  | cons c cs ih =>
    rw [List.flatten_cons, consumeCol_append]
    cases h : consumeCol a c with
    | none => simp [consumeLayout, h]
    | some a' => simp [consumeLayout, h, ih]

/-- The validation loop empties the widget map exactly when the proposed IDs
are a permutation of the available ones. -/
theorem consumeCol_eq_some_nil_iff (l a : List Int) :
    consumeCol a l = some [] ↔ l.Perm a := by
  induction l generalizing a with
  | nil =>
    constructor
    · intro h
      have : a = [] := by simpa [consumeCol] using h
      simp [this]
    · intro h
      have : a = [] := h.symm.eq_nil
      simp [consumeCol, this]
  | cons x xs ih =>
    by_cases hx : x ∈ a
    · rw [List.cons_perm_iff_perm_erase]
      simp [consumeCol, hx, ih]
    · simp only [consumeCol, if_neg hx]
      constructor
      · intro h; exact absurd h (by simp)
      · intro h
        exact absurd (h.mem_iff.mp (List.mem_cons_self x xs)) hx

/-- Folding the map-building insertion over a duplicate-free list appends
every element. -/
theorem foldl_ins_of_nodup (l : List Int) :
    ∀ acc : List Int, (acc ++ l).Nodup →
      l.foldl (fun s id => if id ∈ s then s else s ++ [id]) acc = acc ++ l := by
  induction l with
  | nil => intro acc _; simp
  | cons x xs ih =>
    intro acc h
    have hx : x ∉ acc := by
      have hd := (List.nodup_append.mp h).2.2
      intro hmem
      exact hd hmem (List.mem_cons_self x xs)
    have h' : ((acc ++ [x]) ++ xs).Nodup := by
      simpa [List.append_assoc] using h
    calc (x :: xs).foldl (fun s id => if id ∈ s then s else s ++ [id]) acc
        = xs.foldl (fun s id => if id ∈ s then s else s ++ [id]) (acc ++ [x]) := by
          simp [hx]
      _ = (acc ++ [x]) ++ xs := ih (acc ++ [x]) h'
      _ = acc ++ x :: xs := by simp

/-- For a duplicate-free current layout, the widget map holds exactly the
flattened current layout. -/
theorem buildAvail_of_nodup (cur : List (List Int)) (h : cur.flatten.Nodup) :
    buildAvail cur = cur.flatten := by
  simpa [buildAvail] using foldl_ins_of_nodup cur.flatten [] (by simpa using h)

/-- Claim C1: for a stored tab whose layout holds pairwise-distinct widget
IDs, `UpdateTabLayout` succeeds exactly when the proposed layout's widget IDs
are a permutation of the current ones (no unknown ID, no current ID missing,
no ID duplicated); on success it persists the proposed layout, and on failure
the stored layout is unchanged. -/
theorem updateTabLayout_perm_iff (cur newLayout : List (List Int))
    (h : cur.flatten.Nodup) :
    ((UpdateTabLayout false newLayout cur).1 = Except.ok () ↔
      newLayout.flatten.Perm cur.flatten) ∧
    ((UpdateTabLayout false newLayout cur).1 = Except.ok () →
      (UpdateTabLayout false newLayout cur).2 = newLayout) ∧
    (∀ e, (UpdateTabLayout false newLayout cur).1 = Except.error e →
      (UpdateTabLayout false newLayout cur).2 = cur) := by
  have hkey : consumeLayout (buildAvail cur) newLayout =
      consumeCol cur.flatten newLayout.flatten := by
    rw [buildAvail_of_nodup cur h, consumeLayout_eq_flatten]
  rw [UpdateTabLayout, runInTransaction_false_eq]
  cases hc : consumeCol cur.flatten newLayout.flatten with
  | none =>
    have hperm : ¬ newLayout.flatten.Perm cur.flatten := by
      rw [← consumeCol_eq_some_nil_iff, hc]; simp
    simp [updateTabLayoutTx, hkey, hc, hperm]
  | some rest =>
    cases rest with
    | nil =>
      have hperm : newLayout.flatten.Perm cur.flatten :=
        (consumeCol_eq_some_nil_iff _ _).mp hc
      simp [updateTabLayoutTx, hkey, hc, hperm]
    | cons y ys =>
      have hperm : ¬ newLayout.flatten.Perm cur.flatten := by
        rw [← consumeCol_eq_some_nil_iff, hc]; simp
      simp [updateTabLayoutTx, hkey, hc, hperm]

/-- Witness for C1: swapping the two widgets of a two-column tab is accepted
and persisted. -/
theorem updateTabLayout_perm_iff_witness :
    (UpdateTabLayout false [[2], [1]] [[1, 2]]).1 = Except.ok () ∧
    (UpdateTabLayout false [[2], [1]] [[1, 2]]).2 = [[2], [1]] := by
  have h := updateTabLayout_perm_iff [[1, 2]] [[2], [1]] (by decide)
  have hok : (UpdateTabLayout false [[2], [1]] [[1, 2]]).1 = Except.ok () :=
    h.1.mpr (by decide)
  exact ⟨hok, h.2.1 hok⟩

/-- The column scan fails exactly on columns that do not hold the widget. -/
theorem lastIdx_eq_none_iff (wid : Int) (l : List Int) :
    lastIdx wid l = none ↔ wid ∉ l := by
  induction l with
  | nil => simp [lastIdx]
  | cons x xs ih =>
    cases h : lastIdx wid xs with
    | some j =>
      have hmem : wid ∈ xs := by
        by_contra hn
        rw [ih.mpr hn] at h
        exact Option.noConfusion h
      simp [lastIdx, h, hmem]
    | none =>
      have hn : wid ∉ xs := ih.mp h
      by_cases hx : x = wid
      · simp [lastIdx, h, hx]
      · simp [lastIdx, h, hx, hn, Ne.symm hx]

/-- In a column holding the widget exactly once, the scan finds it and
removing that entry is filtering the widget out (relative order kept). -/
theorem lastIdx_count_one (wid : Int) (col : List Int)
    (h : col.count wid = 1) :
    ∃ j, lastIdx wid col = some j ∧
      col.eraseIdx j = col.filter (fun x => x != wid) := by
  induction col with
  | nil => simp at h
  | cons x xs ih =>
    by_cases hx : x = wid
    · have hxs : xs.count wid = 0 := by
        rw [hx, List.count_cons_self] at h
        omega
      have hnot : wid ∉ xs := by
        rw [← List.count_eq_zero]; exact hxs
      have hnone : lastIdx wid xs = none := (lastIdx_eq_none_iff _ _).mpr hnot
      refine ⟨0, ?_, ?_⟩
      · simp [lastIdx, hnone, hx]
      · have hfil : xs.filter (fun x => x != wid) = xs :=
          List.filter_eq_self.mpr (fun b hb => by
            simp
            intro hbw
            exact hnot (hbw ▸ hb))
        simp [hx, hfil]
    · have hxs : xs.count wid = 1 := by
        rw [List.count_cons_of_ne (Ne.symm hx)] at h
        exact h
      obtain ⟨j, hj, he⟩ := ih hxs
      refine ⟨j + 1, ?_, ?_⟩
      · simp [lastIdx, hj]
      · have : (x :: xs).eraseIdx (j + 1) = x :: xs.eraseIdx j := rfl
        rw [this, he]
        simp [List.filter_cons, hx]

/-- The double scan fails exactly on layouts that hold the widget nowhere. -/
theorem lastPos_eq_none_iff (wid : Int) (cols : List (List Int)) :
    lastPos wid cols = none ↔ wid ∉ cols.flatten := by
  induction cols with
  | nil => simp [lastPos]
  | cons c cs ih =>
    cases h : lastPos wid cs with
    | some p =>
      have hmem : wid ∈ cs.flatten := by
        by_contra hn
        rw [ih.mpr hn] at h
        exact Option.noConfusion h
      obtain ⟨i, j⟩ := p
      simp [lastPos, h, hmem]
    | none =>
      have hn : wid ∉ cs.flatten := ih.mp h
      cases h2 : lastIdx wid c with
      | some j =>
        have hmem : wid ∈ c := by
          by_contra hnc
          rw [(lastIdx_eq_none_iff _ _).mpr hnc] at h2
          exact Option.noConfusion h2
        simp [lastPos, h, h2, hmem]
      | none =>
        have hnc : wid ∉ c := (lastIdx_eq_none_iff _ _).mp h2
        simp [lastPos, h, h2, hnc, hn]

/-- Columns without the widget are untouched by filtering it out. -/
theorem filter_map_id_of_not_mem (wid : Int) (cols : List (List Int))
    (h : wid ∉ cols.flatten) :
    cols.map (fun col => col.filter (fun x => x != wid)) = cols := by
  induction cols with
  | nil => rfl
  | cons c cs ih =>
    rw [List.flatten_cons, List.mem_append, not_or] at h
    have hfil : c.filter (fun x => x != wid) = c :=
      List.filter_eq_self.mpr (fun b hb => by
        simp
        intro hbw
        exact h.1 (hbw ▸ hb))
    simp [hfil, ih h.2]

/-- In a layout holding the widget exactly once, the double scan finds it and
removal at the found position filters the widget out of every column. -/
theorem lastPos_count_one (wid : Int) (cols : List (List Int))
    (h : cols.flatten.count wid = 1) :
    ∃ i j, lastPos wid cols = some (i, j) ∧
      removeAt i j cols = cols.map (fun col => col.filter (fun x => x != wid)) := by
  induction cols with
  | nil => simp at h
  | cons c cs ih =>
    rw [List.flatten_cons, List.count_append] at h
    by_cases hcs : cs.flatten.count wid = 1
    · have hc : c.count wid = 0 := by omega
      have hcnot : wid ∉ c := by rw [← List.count_eq_zero]; exact hc
      have hfil : c.filter (fun x => x != wid) = c :=
        List.filter_eq_self.mpr (fun b hb => by
          simp
          intro hbw
          exact hcnot (hbw ▸ hb))
      obtain ⟨i, j, hp, hr⟩ := ih hcs
      refine ⟨i + 1, j, ?_, ?_⟩
      · simp [lastPos, hp]
      · simp [removeAt, hr, hfil]
    · have hc : c.count wid = 1 := by omega
      have hcs0 : cs.flatten.count wid = 0 := by omega
      have hnone : lastPos wid cs = none :=
        (lastPos_eq_none_iff _ _).mpr (by rw [← List.count_eq_zero]; exact hcs0)
      obtain ⟨j, hj, he⟩ := lastIdx_count_one wid c hc
      refine ⟨0, j, ?_, ?_⟩
      · simp [lastPos, hnone, hj]
      · have hrest : cs.map (fun col => col.filter (fun x => x != wid)) = cs :=
          filter_map_id_of_not_mem wid cs (by rw [← List.count_eq_zero]; exact hcs0)
      -- removal happens in the head column only
        simp [removeAt, he, hrest]

/-- Claim C4: when the widget occurs (once, as the tab invariant guarantees)
in some column, `DeleteWidgetFromTab` removes exactly that entry, keeping the
relative order of the rest of its column and all other columns unchanged;
when it occurs in no column the call fails with the widget-not-found error
and the stored layout is unchanged. -/
theorem deleteWidgetFromTab_removes_preserving_order (cur : List (List Int))
    (wid : Int) :
    (cur.flatten.count wid = 1 →
      DeleteWidgetFromTab false wid cur =
        (Except.ok (), cur.map (fun col => col.filter (fun x => x != wid)))) ∧
    (wid ∉ cur.flatten →
      DeleteWidgetFromTab false wid cur =
        (Except.error "widget not found", cur)) := by
  constructor
  · intro h
    obtain ⟨i, j, hp, hr⟩ := lastPos_count_one wid cur h
    rw [DeleteWidgetFromTab, runInTransaction_false_eq]
    simp [deleteWidgetTx, hp, hr]
  · intro h
    have hp : lastPos wid cur = none := (lastPos_eq_none_iff _ _).mpr h
    rw [DeleteWidgetFromTab, runInTransaction_false_eq]
    simp [deleteWidgetTx, hp]

/-- Witness for C4: removing widget 2 from the column `[1, 2, 3]` yields
`[1, 3]` and leaves the second column alone. -/
theorem deleteWidgetFromTab_witness :
    DeleteWidgetFromTab false 2 [[1, 2, 3], [4]] =
      (Except.ok (), [[1, 3], [4]]) := by
  have h := (deleteWidgetFromTab_removes_preserving_order [[1, 2, 3], [4]] 2).1
    (by decide)
  simpa using h

/-- Replacing every row matching a predicate by a fixed row that itself
matches keeps the first match at its position. -/
theorem find_of_map_replace {α : Type} (p : α → Bool) (nr : α)
    (hnr : p nr = true) :
    ∀ (store : List α) (r : α), store.find? p = some r →
      (store.map (fun row => if p row then nr else row)).find? p = some nr := by
  intro store
  induction store with
  | nil => intro r h; simp at h
  | cons a as ih =>
    intro r h
    by_cases ha : p a = true
    · simp [List.find?_cons, ha, hnr]
    · rw [List.find?_cons_of_neg _ ha] at h
      have ha' : (if p a then nr else a) = a := by
        simp at ha
        simp [ha]
      simp only [List.map_cons, ha']
      rw [List.find?_cons_of_neg _ ha]
      exact ih r h

/-- Claim C3: `StoreEmailItem` follows the monotonic-merge rule. With no row
stored for `(account.ID, item.GUID)` it inserts the item at the incoming
version, whatever that version is; with a row stored at version `v` it
overwrites every cached field and the version when the incoming version is
strictly greater, and with an incoming version at most `v` it leaves the
store completely unchanged and reports success. -/
theorem storeEmailItem_monotonic_merge (store : List EmailRow) (aid : Int)
    (version : Nat) (item : EmailItem) :
    (findRow store aid item.guid = none →
      StoreEmailItem store aid version item = store ++ [⟨aid, item, version⟩]) ∧
    (∀ r, findRow store aid item.guid = some r → r.version < version →
      findRow (StoreEmailItem store aid version item) aid item.guid =
        some ⟨aid, item, version⟩ ∧
      StoreEmailItem store aid version item =
        store.map (fun row =>
          if rowKey aid item.guid row then ⟨aid, item, version⟩ else row)) ∧
    (∀ r, findRow store aid item.guid = some r → version ≤ r.version →
      StoreEmailItem store aid version item = store) := by
  refine ⟨?_, ?_, ?_⟩
  · intro h
    simp [StoreEmailItem, h]
  · intro r h hv
    have hdef : StoreEmailItem store aid version item =
        store.map (fun row =>
          if rowKey aid item.guid row then ⟨aid, item, version⟩ else row) := by
      simp [StoreEmailItem, h, hv]
    refine ⟨?_, hdef⟩
    rw [hdef, findRow]
    exact find_of_map_replace (rowKey aid item.guid) ⟨aid, item, version⟩
      (by simp [rowKey]) store r h
  · intro r h hv
    simp [StoreEmailItem, h, Nat.not_lt.mpr hv]

/-- Witness for C3: an item cached at version 5 is untouched by an upsert at
version 3. -/
theorem storeEmailItem_monotonic_merge_witness :
    StoreEmailItem [⟨7, ⟨"g", "t", 0, "l", "s", "sn", false⟩, 5⟩] 7 3
        ⟨"g", "t2", 1, "l2", "s2", "sn2", true⟩ =
      [⟨7, ⟨"g", "t", 0, "l", "s", "sn", false⟩, 5⟩] :=
  (storeEmailItem_monotonic_merge [⟨7, ⟨"g", "t", 0, "l", "s", "sn", false⟩, 5⟩]
      7 3 ⟨"g", "t2", 1, "l2", "s2", "sn2", true⟩).2.2
    ⟨7, ⟨"g", "t", 0, "l", "s", "sn", false⟩, 5⟩ rfl (by decide)

/-- Claim C8: `GetEmailItem` reports absence as success: when no stored row
for the account and GUID reaches the requested minimum version, it returns
the zero-value item together with a nil error, so a caller never sees a
NotFound error from it. -/
theorem getEmailItem_absent_is_success (store : List EmailRow) (aid : Int)
    (g : String) (minVersion : Nat)
    (h : ∀ r ∈ store, r.accountID = aid → r.item.guid = g →
      r.version < minVersion) :
    GetEmailItem store aid g minVersion = Except.ok zeroEmailItem := by
  have hfind : store.find?
      (fun r => rowKey aid g r && decide (minVersion ≤ r.version)) = none := by
    rw [List.find?_eq_none]
    intro r hr
    simp [rowKey]
    intro haid hg
    exact Nat.lt_iff_add_one_le.mp (h r hr haid hg)
  simp [GetEmailItem, hfind]

/-- Witness for C8: a row at version 5 does not satisfy a minimum version of
6, so the zero item is returned without error. -/
theorem getEmailItem_absent_is_success_witness :
    GetEmailItem [⟨7, ⟨"g", "t", 0, "l", "s", "sn", false⟩, 5⟩] 7 "g" 6 =
      Except.ok zeroEmailItem :=
  getEmailItem_absent_is_success [⟨7, ⟨"g", "t", 0, "l", "s", "sn", false⟩, 5⟩]
    7 "g" 6 (by decide)

/-- A list on which the lookup finds nothing filters to the empty list. -/
theorem filter_eq_nil_of_find_none {α : Type} (p : α → Bool) (l : List α)
    (h : l.find? p = none) : l.filter p = [] := by
  rw [List.filter_eq_nil_iff]
  intro a ha
  have := List.find?_eq_none.mp h a ha
  simpa using this

/-- Claim C5: `GetOrCreateFeedID` is idempotent per URL: run twice in
sequence on a table holding at most one row for the URL (the uniqueness the
schema provides), both calls return the same feed ID, the second call leaves
the table exactly as the first left it (no second insert), and afterwards
exactly one feed row exists for that URL. -/
theorem getOrCreateFeedID_idempotent (db : FeedDB) (url : String)
    (h : (db.feeds.filter (fun f => f.url == url)).length ≤ 1) :
    (GetOrCreateFeedID (GetOrCreateFeedID db url).2 url).1 =
      (GetOrCreateFeedID db url).1 ∧
    (GetOrCreateFeedID (GetOrCreateFeedID db url).2 url).2 =
      (GetOrCreateFeedID db url).2 ∧
    (((GetOrCreateFeedID (GetOrCreateFeedID db url).2 url).2).feeds.filter
      (fun f => f.url == url)).length = 1 := by
  cases hf : db.feeds.find? (fun f => f.url == url) with
  | some row =>
    have h1 : GetOrCreateFeedID db url = (row.id, db) := by
      simp [GetOrCreateFeedID, hf]
    have hp : (row.url == url) = true := by
      have h2 := List.find?_some hf
      simpa using h2
    have hmem : row ∈ db.feeds.filter (fun f => f.url == url) :=
      List.mem_filter.mpr ⟨List.mem_of_find?_eq_some hf, hp⟩
    have hpos : 0 < (db.feeds.filter (fun f => f.url == url)).length :=
      List.length_pos.mpr (List.ne_nil_of_mem hmem)
    have hlen : (db.feeds.filter (fun f => f.url == url)).length = 1 := by omega
    rw [h1]
    refine ⟨by simp [GetOrCreateFeedID, hf], by simp [GetOrCreateFeedID, hf], ?_⟩
    simpa [GetOrCreateFeedID, hf] using hlen
  | none =>
    have hnil : db.feeds.filter (fun f => f.url == url) = [] :=
      filter_eq_nil_of_find_none _ _ hf
    have h1 : GetOrCreateFeedID db url =
        (db.nextID, ⟨db.feeds ++ [⟨db.nextID, url⟩], db.nextID + 1⟩) := by
      simp [GetOrCreateFeedID, hf]
    have hf2 : (db.feeds ++ [(⟨db.nextID, url⟩ : FeedRow)]).find?
        (fun f => f.url == url) = some ⟨db.nextID, url⟩ := by
      rw [List.find?_append, hf]
      simp
    rw [h1]
    refine ⟨by simp [GetOrCreateFeedID, hf2], by simp [GetOrCreateFeedID, hf2], ?_⟩
    simp [GetOrCreateFeedID, hf2, List.filter_append, hnil]

/-- Witness for C5: starting from an empty feed table. -/
theorem getOrCreateFeedID_idempotent_witness :
    (GetOrCreateFeedID (GetOrCreateFeedID ⟨[], 1⟩ "http://example.com/rss").2
        "http://example.com/rss").1 =
      (GetOrCreateFeedID ⟨[], 1⟩ "http://example.com/rss").1 ∧
    (GetOrCreateFeedID (GetOrCreateFeedID ⟨[], 1⟩ "http://example.com/rss").2
        "http://example.com/rss").2 =
      (GetOrCreateFeedID ⟨[], 1⟩ "http://example.com/rss").2 ∧
    (((GetOrCreateFeedID (GetOrCreateFeedID ⟨[], 1⟩ "http://example.com/rss").2
        "http://example.com/rss").2).feeds.filter
      (fun f => f.url == "http://example.com/rss")).length = 1 :=
  getOrCreateFeedID_idempotent ⟨[], 1⟩ "http://example.com/rss" (by simp)

/-- Zipping a list with its own image pairs each element with its image. -/
theorem zip_self_map {α β : Type} (l : List α) (f : α → β) :
    l.zip (l.map f) = l.map (fun a => (a, f a)) := by
  induction l with
  | nil => rfl
  | cons x xs ih => simp [ih]

/-- Claim C9: `App.FeedItems` truncates to 100 items: on a feed with more
than 100 stored items only the first 100 (in repository order) get their
read status looked up and are returned; the rest are dropped. -/
theorem feedItems_truncates (rs : ReadStore) (u : String) (fid : Int)
    (url : String) (feeditems : List FeedItem)
    (h : feeditems.length > 100) :
    FeedItemsCore rs u fid url feeditems =
      Except.ok ((feeditems.take 100).map
        (fun it => ⟨it, readLookup rs u fid it.guid⟩)) := by
  have hne : ¬ feeditems.length = 0 := by omega
  simp only [FeedItemsCore, if_neg hne, if_pos h, AreItemsRead, List.map_map,
    zip_self_map]
  rfl

/-- Witness for C9: a 101-item feed is cut down to its first 100 items. -/
theorem feedItems_truncates_witness :
    FeedItemsCore [] "u" 1 "http://example.com/rss"
        ((List.range 101).map (fun i => ⟨toString i, "", 0, ""⟩)) =
      Except.ok ((((List.range 101).map
          (fun i => (⟨toString i, "", 0, ""⟩ : FeedItem))).take 100).map
        (fun it => ⟨it, readLookup [] "u" 1 it.guid⟩)) :=
  feedItems_truncates [] "u" 1 "http://example.com/rss"
    ((List.range 101).map (fun i => ⟨toString i, "", 0, ""⟩)) (by simp)

/-- An error outcome of the transaction-scoping call leaves the state as it
was (the snapshot holding the closure's writes is discarded). -/
theorem runInTransaction_error_state {σ : Type} (f : σ → Except String Unit × σ)
    (db : σ) (e : String) (st : σ)
    (h : runInTransaction false f db = (Except.error e, st)) : st = db := by
  rw [runInTransaction_false_eq] at h
  cases hf : f db with
  | mk r s =>
    rw [hf] at h
    cases r with
    | error e2 =>
      simp at h
      exact h.2.symm
    | ok u => simp at h

/-- Counterexample to claim C6: adding a widget to a tab is not bracketed by
the transaction-scoping primitive. On a one-empty-column tab, when the
`StoreTab` call that should register the new widget in the layout fails, the
whole call errors while the widget row inserted by the preceding separate
`StoreWidget` call stays persisted and no column references it. -/
theorem newWidget_not_transactional_cex :
    (NewWidget ⟨"News", [[]], [], ["alice"], 1⟩ "alice" false true).1 =
      Except.error (AppError.basic "saving tab in datastore failed") ∧
    (1 : Int) ∈
      (NewWidget ⟨"News", [[]], [], ["alice"], 1⟩ "alice" false true).2.widgetRows ∧
    (1 : Int) ∉
      (NewWidget ⟨"News", [[]], [], ["alice"], 1⟩ "alice" false true).2.layout.flatten :=
  ⟨rfl, by decide, by decide⟩

/-- Amended claim C6: the repository operations `UpdateTabLayout` and
`DeleteWidgetFromTab` do run inside the transaction-scoping primitive, so
any failure during them (a validation error, a missing widget, or a failing
`StoreTab`) leaves the stored layout exactly as it was; but `App.NewWidget`
persists the widget row and the updated tab through separate
non-transactional repository calls, so when its `StoreTab` call fails the
fresh widget row stays persisted while no column of the layout references
it (an orphaned widget row). -/
theorem reconciliation_transactionality (sf : Bool) :
    (∀ (newLayout cur : List (List Int)) (e : String) (st : List (List Int)),
      UpdateTabLayout sf newLayout cur = (Except.error e, st) → st = cur) ∧
    (∀ (wid : Int) (cur : List (List Int)) (e : String) (st : List (List Int)),
      DeleteWidgetFromTab sf wid cur = (Except.error e, st) → st = cur) ∧
    (∀ db : AppDB, db.nextWidgetID ∉ db.layout.flatten →
      ∃ e db', NewWidgetPersist true db = (Except.error e, db') ∧
        db.nextWidgetID ∈ db'.widgetRows ∧
        db.nextWidgetID ∉ db'.layout.flatten) := by
  refine ⟨?_, ?_, ?_⟩
  · intro newLayout cur e st h
    exact runInTransaction_error_state _ _ _ _ h
  · intro wid cur e st h
    exact runInTransaction_error_state _ _ _ _ h
  · intro db hfresh
    refine ⟨AppError.basic "saving tab in datastore failed",
      ⟨db.tabTitle, db.layout, db.widgetRows ++ [db.nextWidgetID], db.access,
        db.nextWidgetID + 1⟩, rfl, by simp, ?_⟩
    simpa using hfresh

/-- Witness for the amended C6: the concrete orphaned-widget run. -/
theorem reconciliation_transactionality_witness :
    ∃ e db', NewWidgetPersist true ⟨"News", [[]], [], ["alice"], 1⟩ =
        (Except.error e, db') ∧
      (1 : Int) ∈ db'.widgetRows ∧ (1 : Int) ∉ db'.layout.flatten :=
  (reconciliation_transactionality true).2.2 ⟨"News", [[]], [], ["alice"], 1⟩
    (by decide)

/-- Counterexample to claim C7: a caller holding no access grant and no admin
flag makes `App.EditTab` fail without mutating anything, but the error is the
access-check error wrapped with "access by", whose root cause is a plain
`errors.New` value, not a value of the `notAuthorized` type — so the failure
is not NotAuthorized-classified as the claim requires. -/
theorem editTab_guard_error_kind_cex :
    (EditTab ⟨"News", [[]], [], ["alice"], 1⟩ "bob" false "x").1 =
      Except.error (AppError.wrap ("access by " ++ "bob")
        (AppError.basic "Tab access not allowed")) ∧
    AppError.isNotAuthorizedError (AppError.wrap ("access by " ++ "bob")
      (AppError.basic "Tab access not allowed")) = false ∧
    (EditTab ⟨"News", [[]], [], ["alice"], 1⟩ "bob" false "x").2 =
      ⟨"News", [[]], [], ["alice"], 1⟩ :=
  ⟨rfl, rfl, rfl⟩

/-- Amended claim C7: for the embedded tab operations (edit tab, update
layout, delete widget, add widget), a non-admin caller with no access grant
for the tab does fail and no stored state is mutated; the error, however, is
the wrapped "Tab access not allowed" check error, which is not
NotAuthorized-classified — only the user-scoped operations of `app.go` build
values of the `notAuthorized` type. -/
theorem tabOps_guard_no_mutation (db : AppDB) (caller : String)
    (hng : db.access.filter (fun u => u == caller) = []) :
    (∀ newTitle, ∃ e, EditTab db caller false newTitle = (Except.error e, db) ∧
      e.isNotAuthorizedError = false) ∧
    (∀ newLayout, ∃ e,
      UpdateLayout db caller false newLayout = (Except.error e, db) ∧
      e.isNotAuthorizedError = false) ∧
    (∀ wid, ∃ e, DeleteWidget db caller false wid = (Except.error e, db) ∧
      e.isNotAuthorizedError = false) ∧
    (∀ sf, ∃ e, NewWidget db caller false sf = (Except.error e, db) ∧
      e.isNotAuthorizedError = false) := by
  have hguard : IsTabAccessAllowed db caller =
      Except.error (AppError.basic "Tab access not allowed") := by
    rw [IsTabAccessAllowed, hng]
    simp
  refine ⟨?_, ?_, ?_, ?_⟩
  · intro newTitle
    exact ⟨AppError.wrap ("access by " ++ caller)
      (AppError.basic "Tab access not allowed"), by simp [EditTab, hguard], rfl⟩
  · intro newLayout
    exact ⟨AppError.wrap ("access by " ++ caller)
      (AppError.basic "Tab access not allowed"), by simp [UpdateLayout, hguard], rfl⟩
  · intro wid
    exact ⟨AppError.wrap ("access by " ++ caller)
      (AppError.basic "Tab access not allowed"), by simp [DeleteWidget, hguard], rfl⟩
  · intro sf
    exact ⟨AppError.wrap ("access by " ++ caller)
      (AppError.basic "Tab access not allowed"), by simp [NewWidget, hguard], rfl⟩

/-- Witness for the amended C7: the concrete guarded `EditTab` run. -/
theorem tabOps_guard_no_mutation_witness :
    ∃ e, EditTab ⟨"News", [[]], [], ["alice"], 1⟩ "bob" false "x" =
        (Except.error e, ⟨"News", [[]], [], ["alice"], 1⟩) ∧
      e.isNotAuthorizedError = false :=
  (tabOps_guard_no_mutation ⟨"News", [[]], [], ["alice"], 1⟩ "bob"
    (by decide)).1 "x"

/-- Claim C10: `App.FeedItems` fails on an empty feed: with zero items after
any due refresh it returns the "No items in feed" error, never an empty
list. -/
theorem feedItems_empty_errors (rs : ReadStore) (u : String) (fid : Int)
    (url : String) :
    FeedItemsCore rs u fid url [] = Except.error ("No items in feed " ++ url) := by
  simp [FeedItemsCore]

end Okihome
